import Mathlib

/-!
Verification development for the enviro-chamber controller
(`src/ENVIRO_CHAMBER/src/main_enviro.cpp`).

The source is an ESP32/FreeRTOS program with three tasks (`task_WiFi`,
`task_sensor`, `task_heater`), two `Share<int16_t>` inter-task values
(`desired_temp`, `temp_reading`), a `setup` routine creating the tasks,
and a serial line-input helper `enterStringWithEcho`.

The header `taskshare.h` (the `Share` container) is part of the project
but its source is not available here; the `Share` container is therefore
modelled from the specification (single-slot, lock-protected container
with a has-been-written flag).  Everything else is embedded directly from
`main_enviro.cpp`.
-/

namespace EnviroChamber

/-- THRESHOLD (main_enviro.cpp line 351): the fixed deadband constant for
the heater on/off decision, defined as 10. -/
def THRESHOLD : Int := 10

/-- The heater decision of `task_heater` (line 613):
`if (current < (setpoint - THRESHOLD)) digitalWrite(HEATER_PIN, 1)
else digitalWrite(HEATER_PIN, 0)`.  `true` means heater commanded ON. -/
def heaterCommand (setpoint current : Int) : Bool :=
  decide (current < setpoint - THRESHOLD)

/-- Modelled from the spec: `taskshare.h` is not available in the sources,
so the SharedValue container `Share<int16_t>` is modelled from the
specification: a single-slot, lock-protected container holding at most one
value, absent until the first `put`, with a has-been-written flag
(spec: `read() -> Option<T>` / `read(out) -> bool` returns whether a value
had ever been written). -/
structure Share where
  value : Option Int
deriving DecidableEq, Repr

/-- A `Share` as constructed at program start (`Share<int16_t> desired_temp
("Temperature")`, lines 354 and 357): no value has been written yet. -/
def Share.mkEmpty : Share := ⟨none⟩

/-- Modelled from the spec: `put` overwrites the stored value and sets the
has-been-written flag. -/
def Share.put (_s : Share) (v : Int) : Share := ⟨some v⟩

/-- Modelled from the spec: `get` with an out-parameter copies the current
value out when one has ever been written and reports `true`; when no value
has ever been written there is no current value to copy, so the caller's
variable keeps its previous content and the report is `false`.  Returns
(new content of the out-variable, has-been-written flag). -/
def Share.get (s : Share) (out : Int) : Int × Bool :=
  match s.value with
  | some v => (v, true)
  | none => (out, false)

/-- The task-local variables of `task_heater` (lines 604-605):
`int16_t setpoint = 20; int16_t current = 0;`. -/
structure HeaterState where
  setpoint : Int
  current : Int
deriving DecidableEq, Repr

/-- Initial task-local state of `task_heater`: setpoint 20 (the compiled-in
default), current 0. -/
def task_heater_init : HeaterState := ⟨20, 0⟩

/-- One iteration of the `for(;;)` loop of `task_heater` (lines 610-620):
`desired_temp.get(setpoint); temp_reading.get(current);` then the
threshold decision drives `HEATER_PIN`.  Arguments are the states of the
two shares during this cycle; result is the updated task-local state and
the commanded heater output (`true` = ON). -/
def task_heater_cycle (desired temp : Share) (st : HeaterState) :
    HeaterState × Bool :=
  let sp := (Share.get desired st.setpoint).1
  let cur := (Share.get temp st.current).1
  (⟨sp, cur⟩, heaterCommand sp cur)

/-- A run of `task_heater` over a list of control cycles, each cycle given
the states of the two shares at that instant.  For each cycle we record
(setpoint used, reading used, heater command). -/
def task_heater_run (st : HeaterState) :
    List (Share × Share) → List (Int × Int × Bool)
  | [] => []
  | (d, t) :: rest =>
    let r := task_heater_cycle d t st
    (r.1.setpoint, r.1.current, r.2) :: task_heater_run r.1 rest

/-- Observable events of `task_sensor` (lines 627-652). -/
inductive SensorEv where
  /-- `Serial.println("Could not initialize thermocouple.")` (line 634) -/
  | diagPrint : SensorEv
  /-- `therm1.readThermocoupleTemperature()` (line 649): one sample taken -/
  | sample : Int → SensorEv
  /-- `Serial.println(...)` of the sampled temperature (line 649) -/
  | serialPrint : Int → SensorEv
  /-- a `temp_reading.put(...)` call; no such call exists in `task_sensor` -/
  | sharePut : Int → SensorEv
deriving DecidableEq, Repr

/-- Recognizes a write into the reading share. -/
def SensorEv.isSharePut : SensorEv → Bool
  | SensorEv.sharePut _ => true
  | _ => false

/-- Recognizes a sensor sample event. -/
def SensorEv.isSample : SensorEv → Bool
  | SensorEv.sample _ => true
  | _ => false

/-- One iteration of `task_sensor`'s `for(;;)` loop (lines 641-651): spin
until the data-ready pin indicates a completed conversion, then
`Serial.println(therm1.readThermocoupleTemperature())` and delay.  The
sampled temperature is only printed; no event writes `temp_reading`. -/
def task_sensor_iteration (t : Int) : List SensorEv :=
  [SensorEv.sample t, SensorEv.serialPrint t]

/-- Event trace of the sensor loop over a list of samples. -/
def task_sensor_events : List Int → List SensorEv
  | [] => []
  | t :: rest => task_sensor_iteration t ++ task_sensor_events rest

/-- Outcome of running `task_sensor`: its event trace and whether the task
is stuck in the fatal-halt loop. -/
structure SensorRun where
  events : List SensorEv
  halted : Bool
deriving DecidableEq, Repr

/-- `task_sensor` (lines 627-652): construct the thermocouple driver; if
`therm1.begin()` fails, print a diagnostic and spin forever in
`while (1) delay(10);` (lines 633-636); otherwise configure the
thermocouple and run the sampling loop. -/
def task_sensor (initOk : Bool) (samples : List Int) : SensorRun :=
  if initOk then
    ⟨task_sensor_events samples, false⟩
  else
    ⟨[SensorEv.diagPrint], true⟩

/-- Observable events of `task_WiFi` (lines 521-595). -/
inductive WifiEv where
  /-- `writeFile(SPIFFS, "/inputInt.txt", ...)` (line 564) -/
  | fileWrite : Int → WifiEv
  /-- `Serial.println` of an accepted or recovered integer value -/
  | serialPrint : Int → WifiEv
  /-- `Serial.println` of fixed text (for example "No message sent") -/
  | serialPrintText : WifiEv
  /-- a `desired_temp.put(...)` call; in the source the only such call
  (line 592) is commented out -/
  | sharePut : Int → WifiEv
deriving DecidableEq, Repr

/-- Recognizes a write into the setpoint share. -/
def WifiEv.isSharePut : WifiEv → Bool
  | WifiEv.sharePut _ => true
  | _ => false

/-- The `/get` request handler of `task_WiFi` (lines 557-573): when the
`inputInt` parameter is present, persist it to SPIFFS and print it; the
setpoint share `desired_temp` is not written. -/
def task_WiFi_getHandler (param : Option Int) : List WifiEv :=
  match param with
  | some v => [WifiEv.fileWrite v, WifiEv.serialPrint v]
  | none => [WifiEv.serialPrintText]

/-- One iteration of `task_WiFi`'s `for(;;)` loop (lines 585-594): read
the persisted value back from SPIFFS and print it;
`desired_temp.put(yourInputInt)` (line 592) is commented out with the
remark "uses too much stack space?", so no share write occurs. -/
def task_WiFi_loopIteration (fileValue : Int) : List WifiEv :=
  [WifiEv.serialPrint fileValue]

/-- The three task names of `setup`. -/
inductive TaskName where
  | wifi : TaskName
  | sensor : TaskName
  | heater : TaskName
deriving DecidableEq, Repr

/-- One `xTaskCreate` call: task, stack depth, priority. -/
structure TaskCreate where
  name : TaskName
  stackDepth : Nat
  priority : Nat
deriving DecidableEq, Repr

/-- `setup` (lines 658-691): `SPIFFS.begin(true)`; on failure print
"An Error has occurred while mounting SPIFFS" and return immediately;
otherwise create the three tasks with the stack sizes and priorities of
the `xTaskCreate` calls at lines 671-690.  Result: (diagnostic printed,
tasks created, in creation order). -/
def setup (mountOk : Bool) : Bool × List TaskCreate :=
  if mountOk then
    (false, [⟨TaskName.wifi, 4500, 1⟩, ⟨TaskName.sensor, 1000, 1⟩,
             ⟨TaskName.heater, 1000, 3⟩])
  else
    (true, [])

/-- The scheduling priority 3 passed for the heater task (line 689). -/
def task_heater_priority : Nat := 3

/-- `vTaskDelay(100)` ending each `task_heater` loop iteration (line 619). -/
def task_heater_period : Nat := 100

/-- `vTaskDelay(500)` ending each `task_sensor` loop iteration (line 650). -/
def task_sensor_period : Nat := 500

/-- `enterStringWithEcho` (lines 401-439) as a function of the incoming
character stream.  `size` is the buffer-size argument and `count` the
`uint8_t` character counter, kept as its value modulo 256 (so `count -= 2`
is `(count + 254) % 256`).  Stream values ≤ 0 (`stream.read()` returning
-1) leave the state unchanged.  Backspace (8) with a nonzero count backs
the counter up by two; carriage return (13) is ignored; newline (10) or
`count >= size - 1` stores the terminating NUL at index `count` and
returns.  Result: the list of stores (index, byte) into `buffer`, and the
index of the terminating NUL if the function returned before the stream
was exhausted. -/
def enterStringWithEcho (size : Nat) :
    Nat → List Int → List (Nat × Int) × Option Nat
  | _, [] => ([], none)
  | count, ch :: rest =>
    if 0 < ch then
      if ch = 8 ∧ count ≠ 0 then
        enterStringWithEcho size ((count + 254) % 256) rest
      else if ch = 13 then
        enterStringWithEcho size count rest
      else if ch = 10 ∨ size - 1 ≤ count then
        ([(count, 0)], some count)
      else
        let r := enterStringWithEcho size ((count + 1) % 256) rest
        ((count, ch) :: r.1, r.2)
    else
      enterStringWithEcho size count rest

end EnviroChamber

namespace EnviroChamber.ShareLock

/-!
Modelled from the spec: `taskshare.h` is not available in the sources, so
the concurrency behaviour of `Share<int16_t>` is modelled from the
specification: a write acquires the internal lock, overwrites the stored
value, sets the has-been-written flag and releases the lock; a read
acquires the lock, copies the value out and releases the lock; at most one
task is inside a critical section at any instant.  To make tearing
expressible, the two bytes of the stored `int16_t` are modelled as two
separately-stored bytes: a writer stores the low byte and the high byte in
two distinct steps, and a reader loads them in two distinct steps, all
inside the lock.  One producer task and one consumer task (as in the
program: each share has exactly one of each) interleave their individual
steps under an arbitrary schedule.
-/

/-- The stored slot: two bytes of the int16 value, the has-been-written
flag, and the ghost list of values whose two bytes have both been stored
(most recent first). -/
structure Mem where
  lo : Nat
  hi : Nat
  flag : Bool
  written : List Nat
deriving DecidableEq, Repr

/-- Control state of the producer task, with the values it still has to
write.  A write is: acquire the lock, store the low byte, store the high
byte, set the flag, release the lock. -/
inductive Writer where
  | rest : List Nat → Writer
  | locked : Nat → List Nat → Writer
  | storedLo : Nat → List Nat → Writer
  | storedHi : Nat → List Nat → Writer
  | flagged : Nat → List Nat → Writer
deriving DecidableEq, Repr

/-- Control state of the consumer task.  A read is: acquire the lock, load
the low byte, load the high byte, load the flag, release the lock and
return the observation. -/
inductive Reader where
  | rest : Reader
  | locked : Reader
  | gotLo : Nat → Reader
  | gotHi : Nat → Nat → Reader
  | gotFlag : Nat → Nat → Bool → Reader
deriving DecidableEq, Repr

/-- Whether the producer is inside its critical section. -/
def Writer.holdsLock : Writer → Bool
  | Writer.rest _ => false
  | _ => true

/-- Whether the consumer is inside its critical section. -/
def Reader.holdsLock : Reader → Bool
  | Reader.rest => false
  | _ => true

/-- Global state: both tasks, the slot, and the log of completed read
observations, each paired with the ghost list of values fully written when
the read completed (`none` = the read reported "no value yet"). -/
structure State where
  w : Writer
  r : Reader
  mem : Mem
  obsLog : List (Option Nat × List Nat)
deriving DecidableEq, Repr

/-- One step of the producer.  Acquiring blocks (is a no-op) while the
consumer holds the lock. -/
def stepW (σ : State) : State :=
  match σ.w with
  | Writer.rest [] => σ
  | Writer.rest (v :: vs) =>
    if σ.r.holdsLock then σ else { σ with w := Writer.locked v vs }
  | Writer.locked v vs =>
    { σ with w := Writer.storedLo v vs, mem := { σ.mem with lo := v % 256 } }
  | Writer.storedLo v vs =>
    { σ with w := Writer.storedHi v vs, mem := { σ.mem with hi := v / 256 } }
  | Writer.storedHi v vs =>
    { σ with w := Writer.flagged v vs,
             mem := { σ.mem with flag := true, written := v :: σ.mem.written } }
  | Writer.flagged _ vs => { σ with w := Writer.rest vs }

/-- One step of the consumer.  Acquiring blocks (is a no-op) while the
producer holds the lock. -/
def stepR (σ : State) : State :=
  match σ.r with
  | Reader.rest =>
    if σ.w.holdsLock then σ else { σ with r := Reader.locked }
  | Reader.locked => { σ with r := Reader.gotLo σ.mem.lo }
  | Reader.gotLo l => { σ with r := Reader.gotHi l σ.mem.hi }
  | Reader.gotHi l h => { σ with r := Reader.gotFlag l h σ.mem.flag }
  | Reader.gotFlag l h f =>
    { σ with r := Reader.rest,
             obsLog := (if f then some (l + 256 * h) else none, σ.mem.written)
               :: σ.obsLog }

/-- One scheduled step: `true` runs the producer, `false` the consumer. -/
def step (σ : State) (writerTurn : Bool) : State :=
  if writerTurn then stepW σ else stepR σ

/-- The initial state for a producer with value sequence `ws`. -/
def init (ws : List Nat) : State :=
  ⟨Writer.rest ws, Reader.rest, ⟨0, 0, false, []⟩, []⟩

/-- Run the two tasks under an arbitrary interleaving schedule. -/
def run (ws : List Nat) (sched : List Bool) : State :=
  sched.foldl step (init ws)

/-- The slot is consistent: the flag is set iff some write completed, and
the two stored bytes are the bytes of the most recent completed write. -/
def memOK (m : Mem) : Prop :=
  match m.written with
  | [] => m.flag = false
  | v :: _ => m.flag = true ∧ m.lo = v % 256 ∧ m.hi = v / 256

/-- An observation is untorn: either "no value yet" or exactly some value
that was fully written before the read completed. -/
def obsOK (e : Option Nat × List Nat) : Prop :=
  e.1 = none ∨ ∃ v ∈ e.2, e.1 = some v

/-- Slot facts guaranteed by each producer phase. -/
def writerMemOK (w : Writer) (m : Mem) : Prop :=
  match w with
  | Writer.rest _ => memOK m
  | Writer.locked _ _ => memOK m
  | Writer.storedLo v _ => m.lo = v % 256
  | Writer.storedHi v _ => m.lo = v % 256 ∧ m.hi = v / 256
  | Writer.flagged _ _ => memOK m

/-- The bytes collected so far by the consumer agree with the slot. -/
def readerMemOK (r : Reader) (m : Mem) : Prop :=
  match r with
  | Reader.rest => True
  | Reader.locked => True
  | Reader.gotLo l => l = m.lo
  | Reader.gotHi l h => l = m.lo ∧ h = m.hi
  | Reader.gotFlag l h f => l = m.lo ∧ h = m.hi ∧ f = m.flag

/-- Values the producer has not yet fully stored. -/
def Writer.load : Writer → List Nat
  | Writer.rest p => p
  | Writer.locked v p => v :: p
  | Writer.storedLo v p => v :: p
  | Writer.storedHi v p => v :: p
  | Writer.flagged _ p => p

/-- The inductive invariant: mutual exclusion, slot consistency relative
to both tasks' phases, correctness of all logged observations, and the
bookkeeping that every stored or pending value comes from `ws`. -/
def Inv (ws : List Nat) (σ : State) : Prop :=
  ¬(σ.w.holdsLock = true ∧ σ.r.holdsLock = true)
  ∧ writerMemOK σ.w σ.mem
  ∧ readerMemOK σ.r σ.mem
  ∧ (∀ e ∈ σ.obsLog, obsOK e ∧ ∀ v ∈ e.2, v ∈ ws)
  ∧ (∀ v ∈ σ.mem.written, v ∈ ws)
  ∧ (∀ v ∈ σ.w.load, v ∈ ws)

end EnviroChamber.ShareLock

namespace EnviroChamber

/-- C1 (amended): in every control cycle of `task_heater` where both
shares hold values S and R, the heater is commanded ON iff
R < S - THRESHOLD (strict); for setpoint 20 the readings [5, 9, 10, 11, 25]
give the commands [ON, ON, OFF, OFF, OFF]; the boundary reading
10 = 20 - THRESHOLD gives OFF. -/
theorem heater_on_iff (S R : Int) (st : HeaterState) :
    ((task_heater_cycle ⟨some S⟩ ⟨some R⟩ st).2 = true ↔ R < S - THRESHOLD)
      ∧ ([5, 9, 10, 11, 25].map (fun r => heaterCommand 20 r)
           = [true, true, false, false, false])
      ∧ heaterCommand 20 10 = false := by
  refine ⟨?_, by decide, by decide⟩
  simp [task_heater_cycle, Share.get, heaterCommand]

/-- C1 (counterexample): the claimed command sequence for setpoint 20 and
readings [5, 9, 10, 11, 25] is [ON, ON, ON, OFF, OFF]; the code produces
OFF already at the boundary reading 10, so the claimed sequence is wrong. -/
theorem heater_scenarioA_refuted :
    [5, 9, 10, 11, 25].map (fun r => heaterCommand 20 r)
      ≠ [true, true, true, false, false] := by
  decide

/-- Helper: while the setpoint share is never written, a `task_heater` run
keeps its task-local setpoint unchanged, and every command is the
threshold decision at that setpoint. -/
theorem task_heater_run_keeps_setpoint (temps : List Share)
    (st : HeaterState) (e : Int × Int × Bool)
    (he : e ∈ task_heater_run st (temps.map (fun t => (Share.mkEmpty, t)))) :
    e.1 = st.setpoint ∧ e.2.2 = heaterCommand st.setpoint e.2.1 := by
  induction temps generalizing st with
  | nil => simp [task_heater_run] at he
  | cons t ts ih =>
    rcases List.mem_cons.mp he with h | h
    · subst h
      exact ⟨rfl, rfl⟩
    · exact ih ⟨st.setpoint, (Share.get t st.current).1⟩ h

/-- C5: for every control cycle in which the setpoint share has never been
written, `task_heater` decides with the compiled-in default setpoint 20
(its task-local initializer), whatever the reading share does: every entry
of a run whose setpoint share is always empty uses setpoint 20 and the
threshold decision at setpoint 20. -/
theorem heater_uses_default_setpoint (temps : List Share)
    (e : Int × Int × Bool)
    (he : e ∈ task_heater_run task_heater_init
        (temps.map (fun t => (Share.mkEmpty, t)))) :
    e.1 = 20 ∧ e.2.2 = heaterCommand 20 e.2.1 :=
  task_heater_run_keeps_setpoint temps task_heater_init e he

theorem heater_uses_default_setpoint_witness :
    ((20, 15, false) : Int × Int × Bool) ∈ task_heater_run task_heater_init
        ([(⟨some 15⟩ : Share)].map (fun t => (Share.mkEmpty, t)))
      ∧ ((20 : Int) = 20 ∧ false = heaterCommand 20 15) :=
  ⟨by decide,
    heater_uses_default_setpoint [⟨some 15⟩] (20, 15, false) (by decide)⟩

/-- C4 (counterexample): a control cycle in which the reading share has
never been written but the setpoint share holds 30 commands the heater ON,
not the claimed safe default OFF: the `get` of the unwritten reading share
leaves the task-local reading at its initial value 0, and 0 < 30 - 10. -/
theorem heater_unwritten_reading_not_off :
    (task_heater_cycle (Share.put Share.mkEmpty 30) Share.mkEmpty
        task_heater_init).2 = true := by
  decide

/-- C4 (amended): in a control cycle where the reading share has never
been written, `task_heater` does not command a fixed safe default; it
decides from its retained task-local reading (initially 0): the heater is
commanded ON iff that retained value < setpoint - THRESHOLD, where the
setpoint is the one obtained from the setpoint share. -/
theorem heater_unwritten_reading_uses_local (d : Share) (st : HeaterState) :
    (task_heater_cycle d Share.mkEmpty st).2
      = heaterCommand ((Share.get d st.setpoint).1) st.current :=
  rfl

/-- Helper: the sensor sampling loop produces no share-write events. -/
theorem task_sensor_events_no_puts (samples : List Int) :
    (task_sensor_events samples).filter SensorEv.isSharePut = [] := by
  induction samples with
  | nil => rfl
  | cons t ts ih =>
    simp [task_sensor_events, task_sensor_iteration, List.filter_append, ih,
      SensorEv.isSharePut]

/-- C2 (code evaluation): `task_sensor` never writes `temp_reading`: for
every initialization outcome and every sample sequence, its event trace
contains no share write; the sampled temperatures are only printed to the
serial console. -/
theorem task_sensor_never_puts (initOk : Bool) (samples : List Int) :
    ((task_sensor initOk samples).events.filter SensorEv.isSharePut) = [] := by
  cases initOk with
  | false => rfl
  | true => simpa [task_sensor] using task_sensor_events_no_puts samples

/-- C3 (code evaluation): `task_WiFi` never writes `desired_temp`: neither
accepting a setpoint in the GET handler (which persists it to SPIFFS and
prints it) nor reading the persisted value back in the periodic loop
produces a share write; the only `desired_temp.put` call in the source
(line 592) is commented out. -/
theorem task_WiFi_never_puts (param : Option Int) (fileValue : Int) :
    ((task_WiFi_getHandler param ++ task_WiFi_loopIteration fileValue).filter
        WifiEv.isSharePut) = [] := by
  cases param <;> rfl

/-- C6: if thermocouple initialization fails, `task_sensor` prints the
diagnostic and halts permanently: its whole event trace is the diagnostic
print, so it never samples the sensor and never writes `temp_reading`,
whatever sample sequence would have been available. -/
theorem task_sensor_init_fail_halts (initOk : Bool) (samples : List Int)
    (h : initOk = false) :
    (task_sensor initOk samples).halted = true
      ∧ (task_sensor initOk samples).events = [SensorEv.diagPrint]
      ∧ (task_sensor initOk samples).events.filter SensorEv.isSample = []
      ∧ (task_sensor initOk samples).events.filter SensorEv.isSharePut = [] := by
  subst h
  exact ⟨rfl, rfl, rfl, rfl⟩

theorem task_sensor_init_fail_halts_witness :
    false = false
      ∧ ((task_sensor false [7]).halted = true
        ∧ (task_sensor false [7]).events = [SensorEv.diagPrint]
        ∧ (task_sensor false [7]).events.filter SensorEv.isSample = []
        ∧ (task_sensor false [7]).events.filter SensorEv.isSharePut = []) :=
  ⟨rfl, task_sensor_init_fail_halts false [7] rfl⟩

/-- C7: if the SPIFFS mount fails, `setup` prints a diagnostic and returns
with no task created; if the mount succeeds, it creates exactly the WiFi,
sensor and heater tasks. -/
theorem setup_mount_gate :
    (setup false).1 = true ∧ (setup false).2 = []
      ∧ (setup true).1 = false
      ∧ (setup true).2
          = [⟨TaskName.wifi, 4500, 1⟩, ⟨TaskName.sensor, 1000, 1⟩,
             ⟨TaskName.heater, 1000, 3⟩] :=
  ⟨rfl, rfl, rfl, rfl⟩

/-- C8: among the tasks created by `setup`, the heater task has priority 3
and every other task has strictly lower priority, and the heater loop
period (100 ticks) is strictly shorter than the sensor loop period
(500 ticks). -/
theorem heater_priority_and_period :
    (⟨TaskName.heater, 1000, task_heater_priority⟩ : TaskCreate) ∈ (setup true).2
      ∧ (∀ tc ∈ (setup true).2,
          tc.name ≠ TaskName.heater → tc.priority < task_heater_priority)
      ∧ task_heater_period < task_sensor_period := by
  decide

/-- C10: the `uint8_t` counter of `enterStringWithEcho` wraps under
backspace: after one accepted character (count = 1) a backspace makes
count = (1 - 2) mod 256 = 255, and then any next ordinary character (not
backspace, carriage return or newline) satisfies the termination test
`count >= size - 1` and stores the terminating NUL at buffer index 255 —
beyond the end of the 36-byte buffers the program passes with size 34. -/
theorem enterStringWithEcho_count_wraps (a : Int)
    (h1 : 0 < a) (h2 : a ≠ 8) (h3 : a ≠ 10) (h4 : a ≠ 13) :
    enterStringWithEcho 34 0 [120, 8, a]
      = ([(0, 120), (255, 0)], some 255) := by
  simp [enterStringWithEcho, h1, h2, h3, h4]

theorem enterStringWithEcho_count_wraps_witness :
    (0 : Int) < 97 ∧ (97 : Int) ≠ 8 ∧ (97 : Int) ≠ 10 ∧ (97 : Int) ≠ 13
      ∧ enterStringWithEcho 34 0 [120, 8, 97]
          = ([(0, 120), (255, 0)], some 255) :=
  ⟨by decide, by decide, by decide, by decide,
    enterStringWithEcho_count_wraps 97 (by decide) (by decide) (by decide)
      (by decide)⟩

end EnviroChamber

namespace EnviroChamber.ShareLock

/-- A task that does not hold the lock is a producer at rest. -/
theorem writer_rest_of_not_holds {w : Writer} (h : ¬ w.holdsLock = true) :
    ∃ p, w = Writer.rest p := by
  cases w with
  | rest p => exact ⟨p, rfl⟩
  | locked v p => exact absurd rfl h
  | storedLo v p => exact absurd rfl h
  | storedHi v p => exact absurd rfl h
  | flagged v p => exact absurd rfl h

/-- A task that does not hold the lock is a consumer at rest. -/
theorem reader_rest_of_not_holds {r : Reader} (h : ¬ r.holdsLock = true) :
    r = Reader.rest := by
  cases r with
  | rest => rfl
  | locked => exact absurd rfl h
  | gotLo l => exact absurd rfl h
  | gotHi l hb => exact absurd rfl h
  | gotFlag l hb f => exact absurd rfl h

/-- The invariant holds in the initial state. -/
theorem inv_init (ws : List Nat) : Inv ws (init ws) := by
  refine ⟨?_, rfl, trivial, ?_, ?_, ?_⟩
  · intro hc
    exact Bool.false_ne_true hc.1
  · intro e he
    exact absurd he (List.not_mem_nil e)
  · intro v hv
    exact absurd hv (List.not_mem_nil v)
  · intro v hv
    exact hv

/-- A producer step preserves the invariant. -/
theorem inv_stepW (ws : List Nat) (σ : State) (h : Inv ws σ) :
    Inv ws (stepW σ) := by
  obtain ⟨w, r, mem, obs⟩ := σ
  obtain ⟨hmx, hw, hr, hobs, hwrit, hload⟩ := h
  cases w with
  | rest p =>
    cases p with
    | nil => exact ⟨hmx, hw, hr, hobs, hwrit, hload⟩
    | cons v vs =>
      by_cases hrl : Reader.holdsLock r = true
      · show Inv ws (if Reader.holdsLock r = true then _ else _)
        rw [if_pos hrl]
        exact ⟨hmx, hw, hr, hobs, hwrit, hload⟩
      · show Inv ws (if Reader.holdsLock r = true then _ else _)
        rw [if_neg hrl]
        exact ⟨fun hc => hrl hc.2, hw, hr, hobs, hwrit, hload⟩
  | locked v vs =>
    have hrr : r = Reader.rest :=
      reader_rest_of_not_holds (fun hc => hmx ⟨rfl, hc⟩)
    subst hrr
    exact ⟨fun hc => Bool.false_ne_true hc.2, rfl, trivial, hobs, hwrit, hload⟩
  | storedLo v vs =>
    have hrr : r = Reader.rest :=
      reader_rest_of_not_holds (fun hc => hmx ⟨rfl, hc⟩)
    subst hrr
    exact ⟨fun hc => Bool.false_ne_true hc.2, ⟨hw, rfl⟩, trivial, hobs, hwrit,
      hload⟩
  | storedHi v vs =>
    have hrr : r = Reader.rest :=
      reader_rest_of_not_holds (fun hc => hmx ⟨rfl, hc⟩)
    subst hrr
    refine ⟨fun hc => Bool.false_ne_true hc.2, ?_, trivial, hobs, ?_, ?_⟩
    · exact ⟨rfl, hw.1, hw.2⟩
    · intro x hx
      rcases List.mem_cons.mp hx with hx | hx
      · exact hx ▸ hload v (List.mem_cons_self v vs)
      · exact hwrit x hx
    · intro x hx
      exact hload x (List.mem_cons_of_mem v hx)
  | flagged v vs =>
    exact ⟨fun hc => Bool.false_ne_true hc.1, hw, hr, hobs, hwrit, hload⟩

/-- A consumer step preserves the invariant. -/
theorem inv_stepR (ws : List Nat) (σ : State) (h : Inv ws σ) :
    Inv ws (stepR σ) := by
  obtain ⟨w, r, mem, obs⟩ := σ
  obtain ⟨hmx, hw, hr, hobs, hwrit, hload⟩ := h
  cases r with
  | rest =>
    by_cases hwl : Writer.holdsLock w = true
    · show Inv ws (if Writer.holdsLock w = true then _ else _)
      rw [if_pos hwl]
      exact ⟨hmx, hw, hr, hobs, hwrit, hload⟩
    · show Inv ws (if Writer.holdsLock w = true then _ else _)
      rw [if_neg hwl]
      exact ⟨fun hc => hwl hc.1, hw, trivial, hobs, hwrit, hload⟩
  | locked =>
    exact ⟨fun hc => hmx ⟨hc.1, rfl⟩, hw, rfl, hobs, hwrit, hload⟩
  | gotLo l =>
    exact ⟨fun hc => hmx ⟨hc.1, rfl⟩, hw, ⟨hr, rfl⟩, hobs, hwrit, hload⟩
  | gotHi l hb =>
    exact ⟨fun hc => hmx ⟨hc.1, rfl⟩, hw, ⟨hr.1, hr.2, rfl⟩, hobs, hwrit, hload⟩
  | gotFlag l hb f =>
    obtain ⟨p, hwp⟩ := writer_rest_of_not_holds (fun hc => hmx ⟨hc, rfl⟩)
    subst hwp
    refine ⟨fun hc => Bool.false_ne_true hc.2, hw, trivial, ?_, hwrit, hload⟩
    intro e he
    rcases List.mem_cons.mp he with he | he
    · subst he
      refine ⟨?_, fun v hv => hwrit v hv⟩
      obtain ⟨hl, hh, hf⟩ := hr
      revert hw
      show memOK mem → obsOK _
      unfold memOK obsOK
      cases hmw : mem.written with
      | nil =>
        intro hflag
        left
        simp [hf, hflag]
      | cons v rest2 =>
        intro hmok
        right
        refine ⟨v, List.mem_cons_self v rest2, ?_⟩
        simp only [hf, hmok.1, if_true]
        rw [hl, hh, hmok.2.1, hmok.2.2]
        rw [Nat.mod_add_div v 256]
    · exact hobs e he

/-- A scheduled step preserves the invariant. -/
theorem inv_step (ws : List Nat) (σ : State) (h : Inv ws σ) (b : Bool) :
    Inv ws (step σ b) := by
  cases b with
  | false => exact inv_stepR ws σ h
  | true => exact inv_stepW ws σ h

/-- The invariant holds after every run. -/
theorem inv_run (ws : List Nat) (sched : List Bool) : Inv ws (run ws sched) := by
  have key : ∀ (l : List Bool) (σ : State), Inv ws σ → Inv ws (l.foldl step σ) := by
    intro l
    induction l with
    | nil => exact fun σ h => h
    | cons b bs ih => exact fun σ h => ih (step σ b) (inv_step ws σ h b)
  exact key sched (init ws) (inv_init ws)

/-- C9: for every sequence of values written by the producer and every
interleaving of the two tasks' individual lock, byte-store and byte-load
steps, every completed read observes either "no value yet" or exactly one
value that had been fully written when the read completed (the entry's
ghost list, all of whose members come from the producer's sequence): no
read mixes bytes of two different writes, even when a write overlaps the
read in time. -/
theorem share_read_untorn (ws : List Nat) (sched : List Bool)
    (e : Option Nat × List Nat) (he : e ∈ (run ws sched).obsLog) :
    (e.1 = none ∨ ∃ v ∈ e.2, e.1 = some v) ∧ ∀ v ∈ e.2, v ∈ ws := by
  obtain ⟨-, -, -, hobs, -, -⟩ := inv_run ws sched
  exact ⟨(hobs e he).1, (hobs e he).2⟩

theorem share_read_untorn_witness :
    ((some 300, [300]) : Option Nat × List Nat)
        ∈ (run [300] (List.replicate 5 true ++ List.replicate 5 false)).obsLog
      ∧ ((((some 300 : Option Nat) = none)
            ∨ ∃ v ∈ [300], (some 300 : Option Nat) = some v)
          ∧ ∀ v ∈ [300], v ∈ ([300] : List Nat)) :=
  ⟨by decide,
    share_read_untorn [300] (List.replicate 5 true ++ List.replicate 5 false)
      (some 300, [300]) (by decide)⟩

end EnviroChamber.ShareLock
